import Mathlib

/-! # GoApp order server: handlers over a document collection

A shallow embedding of `server/models/order.go` and `server/routes/orders.go`.

The handlers are straight-line code around one call into the MongoDB driver,
so the embedding has three layers:

* the values that cross the boundary (`ObjectID`, BSON values and documents,
  the `Order` struct and its BSON marshalling),
* the collection operations the handlers call (`InsertOne`, `Find`, `FindOne`,
  `UpdateOne`, `ReplaceOne`, `DeleteOne`) on a collection held as the list of
  its documents in insertion order,
* the seven handlers, each a function from the request context, the
  environment of the call and the collection to a response and a collection.

What the environment decides (the id produced by `primitive.NewObjectID`, a
driver error such as a timeout of the 100 second context) is an explicit
argument, `Env`.
-/

namespace GoApp

/-! ## primitive.ObjectID -/

/-- A Go `byte`. -/
abbrev Byte := Fin 256

/-- The driver's `primitive.ObjectID`, a `[12]byte`. -/
abbrev ObjectID := { bs : List Byte // bs.length = 12 }

/-- The zero value `primitive.NilObjectID`. -/
def NilObjectID : ObjectID := ⟨List.replicate 12 0, by decide⟩

/-- The digit table `"0123456789abcdef"` of `encoding/hex`. -/
def hextable : List Char :=
  ['0', '1', '2', '3', '4', '5', '6', '7', '8', '9', 'a', 'b', 'c', 'd', 'e', 'f']

/-- One entry of `hextable`. -/
def hexDigit (n : Nat) : Char := hextable.getD n '0'

/-- The loop of `hex.Encode`: two digits per byte, high nibble first. -/
def hexEncode : List Byte → List Char
  | [] => []
  | b :: bs => hexDigit (b.val / 16) :: hexDigit (b.val % 16) :: hexEncode bs

/-- The method `ObjectID.Hex`, the external form of an id (also its JSON form). -/
def ObjectID.Hex (id : ObjectID) : String := String.mk (hexEncode id.val)

/-- The value of one hex digit in `hex.Decode`; upper and lower case are
accepted, everything else is an invalid byte. -/
def fromHexChar (c : Char) : Option Nat :=
  if '0' ≤ c ∧ c ≤ '9' then some (c.toNat - '0'.toNat)
  else if 'a' ≤ c ∧ c ≤ 'f' then some (c.toNat - 'a'.toNat + 10)
  else if 'A' ≤ c ∧ c ≤ 'F' then some (c.toNat - 'A'.toNat + 10)
  else none

/-- The loop of `hex.Decode`: pairs of digits to bytes; an invalid digit or an
odd length is an error (`none`). -/
def hexDecode : List Char → Option (List Byte)
  | [] => some []
  | [_] => none
  | p :: q :: rest =>
    match fromHexChar p, fromHexChar q with
    | some a, some b =>
      match hexDecode rest with
      | some bs => some (Fin.ofNat (a * 16 + b) :: bs)
      | none => none
    | _, _ => none

/-- The error `primitive.ErrInvalidHex`. -/
def ErrInvalidHex : String := "the provided hex string is not a valid ObjectID"

/-- The function `primitive.ObjectIDFromHex`: the Go pair `(ObjectID, error)`.
A string that is not 24 bytes long, or holds a byte that is no hex digit,
gives `NilObjectID` and an error. -/
def ObjectIDFromHex (s : String) : ObjectID × Option String :=
  if s.utf8ByteSize ≠ 24 then (NilObjectID, some ErrInvalidHex)
  else
    match hexDecode s.toList with
    | none => (NilObjectID, some "encoding/hex: invalid byte")
    | some bs =>
      if h : bs.length = 12 then (⟨bs, h⟩, none)
      else (NilObjectID, some ErrInvalidHex)

/-! ## BSON values and documents -/

/-- A Go `float64`, carried by its IEEE-754 bit pattern; the handlers never
compute with it. -/
structure Float64 where
  bits : Nat
  deriving DecidableEq, Repr

/-- The BSON values that occur in the orders collection. -/
inductive Value where
  | null
  | string (s : String)
  | double (x : Float64)
  | objectID (id : ObjectID)
  deriving DecidableEq

/-- A BSON document (`bson.M`, `bson.D`): its elements, key and value. -/
abbrev Document := List (String × Value)

/-- The value stored under a key, `none` when the document has no such key. -/
def Document.get (d : Document) (key : String) : Option Value :=
  match d with
  | [] => none
  | (k, v) :: rest => if k = key then some v else Document.get rest key

/-- The update operator `$set` for one field: overwrite the value where the key
exists, add the element at the end where it does not. -/
def Document.set (d : Document) (key : String) (v : Value) : Document :=
  match d with
  | [] => [(key, v)]
  | (k, w) :: rest => if k = key then (k, v) :: rest else (k, w) :: Document.set rest key v

/-- The collection `orders`: its documents, in insertion order. -/
abbrev Collection := List Document

/-! ## models.Order -/

/-- The struct `models.Order`. Pointer fields are `Option`s (`nil` is `none`).
No field carries a `validate` tag. `ID` has no `json` tag, so a body key `ID`
binds to it. -/
structure Order where
  ID : ObjectID
  Dish : Option String
  Price : Option Float64
  Server : Option String
  Table : Option String
  deriving DecidableEq

/-- BSON encoding of a `*string`: a nil pointer is written as null. -/
def bsonString : Option String → Value
  | none => Value.null
  | some s => Value.string s

/-- BSON encoding of a `*float64`: a nil pointer is written as null. -/
def bsonDouble : Option Float64 → Value
  | none => Value.null
  | some x => Value.double x

/-- BSON marshalling of an `Order` by the driver's struct codec: `ID` under its
tag `_id`, every other field under its lower-cased name; no field is
`omitempty`, so all five elements are always written. -/
def Order.toBSON (o : Order) : Document :=
  [("_id", Value.objectID o.ID), ("dish", bsonString o.Dish), ("price", bsonDouble o.Price),
   ("server", bsonString o.Server), ("table", bsonString o.Table)]

/-! ## The collection operations of the driver -/

/-- What the environment decides in one handler call. -/
structure Env where
  /-- The id returned by `primitive.NewObjectID()`. -/
  NewObjectID : ObjectID
  /-- The error of the collection call when the driver cannot complete it (the
  context's deadline, the connection); `none` when the store answers. A call
  that fails this way leaves the collection as it was. -/
  opErr : Option String
  /-- The error of `cursor.All` when the cursor cannot be drained. -/
  cursorErr : Option String

/-- Whether a document satisfies a query filter: every element of the filter is
met, a non-null value by a field equal to it, null by a null or missing
field. -/
def matchesFilter (filter : Document) (d : Document) : Bool :=
  filter.all fun kv =>
    if kv.2 = Value.null then
      decide (d.get kv.1 = none ∨ d.get kv.1 = some Value.null)
    else decide (d.get kv.1 = some kv.2)

/-- The error `mongo.ErrNoDocuments`. -/
def ErrNoDocuments : String := "mongo: no documents in result"

/-- The server's answer to an insert whose `_id` is already in the collection. -/
def ErrDuplicateKey : String := "E11000 duplicate key error"

/-- The server's answer to an update that would change `_id`. -/
def ErrImmutableID : String := "the immutable field _id was found to have been altered"

/-- The call `InsertOne(ctx, order)`: the struct is marshalled and added to the
collection; the unique index on `_id` rejects an id that the collection
already holds. The result carries `InsertedID`. -/
def InsertOne (opErr : Option String) (coll : Collection) (order : Order) :
    Except String (Value × Collection) :=
  match opErr with
  | some e => Except.error e
  | none =>
    let doc := order.toBSON
    if coll.any (fun d => decide (d.get "_id" = some (Value.objectID order.ID))) then
      Except.error ErrDuplicateKey
    else Except.ok (Value.objectID order.ID, coll ++ [doc])

/-- The call `Find(ctx, filter)`: a cursor over the matching documents. -/
def Find (opErr : Option String) (coll : Collection) (filter : Document) :
    Except String (List Document) :=
  match opErr with
  | some e => Except.error e
  | none => Except.ok (coll.filter (matchesFilter filter))

/-- A Go slice of documents, `[]bson.M`: the nil slice, or a slice with its
elements. `encoding/json` writes the nil slice as `null` and a slice that is
not nil as an array, `[]` when it has no element. -/
inductive Slice where
  | nil
  | elems (ds : List Document)
  deriving DecidableEq

/-- The elements of a slice; the nil slice has none. -/
def Slice.toList : Slice → List Document
  | Slice.nil => []
  | Slice.elems ds => ds

/-- Whether `c.JSON` writes the slice as the JSON literal `null`. -/
def Slice.isJSONNull : Slice → Bool
  | Slice.nil => true
  | Slice.elems _ => false

/-- The call `cursor.All(ctx, &orders)`: the documents of the cursor are
appended to `orders[:0]`. A cursor without documents appends nothing, so a nil
`orders` stays nil; otherwise the result is the slice of the documents. -/
def Cursor.All (cursorErr : Option String) (cursor : List Document) (orders : Slice) :
    Except String Slice :=
  match cursorErr with
  | some e => Except.error e
  | none =>
    match cursor with
    | [] =>
      match orders with
      | Slice.nil => Except.ok Slice.nil
      | Slice.elems _ => Except.ok (Slice.elems [])
    | d :: ds => Except.ok (Slice.elems (d :: ds))

/-- The call `FindOne(ctx, filter).Decode(&order)`: the first matching document,
`ErrNoDocuments` when there is none. -/
def FindOne (opErr : Option String) (coll : Collection) (filter : Document) :
    Except String Document :=
  match opErr with
  | some e => Except.error e
  | none =>
    match coll.find? (matchesFilter filter) with
    | some d => Except.ok d
    | none => Except.error ErrNoDocuments

/-- The driver's `mongo.UpdateResult` (no upsert is ever requested). -/
structure UpdateResult where
  MatchedCount : Nat
  ModifiedCount : Nat
  deriving DecidableEq

/-- The driver's `mongo.DeleteResult`. -/
structure DeleteResult where
  DeletedCount : Nat
  deriving DecidableEq

/-- Put `d'` in the place of the first document that satisfies `p`. -/
def replaceFirst (p : Document → Bool) (d' : Document) : Collection → Collection
  | [] => []
  | d :: rest => if p d then d' :: rest else d :: replaceFirst p d' rest

/-- The call `UpdateOne(ctx, filter, {$set: {key: v}})`: the first matching
document gets the field set; a document counts as modified when the update
changed it. -/
def UpdateOne (opErr : Option String) (coll : Collection) (filter : Document)
    (key : String) (v : Value) : Except String (UpdateResult × Collection) :=
  match opErr with
  | some e => Except.error e
  | none =>
    match coll.find? (matchesFilter filter) with
    | none => Except.ok (⟨0, 0⟩, coll)
    | some d =>
      let d' := d.set key v
      if d'.get "_id" ≠ d.get "_id" then Except.error ErrImmutableID
      else Except.ok (⟨1, if d' = d then 0 else 1⟩, replaceFirst (matchesFilter filter) d' coll)

/-- The call `ReplaceOne(ctx, filter, replacement)`: the first matching document
becomes the replacement, under the `_id` it had; a replacement that names another
`_id` is refused. The replacement is a `bson.M`, a Go map, whose element order
is not fixed; the order of the map literal is taken. A stored document always
has an `_id`, the last case is there for totality. -/
def ReplaceOne (opErr : Option String) (coll : Collection) (filter : Document)
    (replacement : Document) : Except String (UpdateResult × Collection) :=
  match opErr with
  | some e => Except.error e
  | none =>
    match coll.find? (matchesFilter filter) with
    | none => Except.ok (⟨0, 0⟩, coll)
    | some d =>
      match d.get "_id", replacement.get "_id" with
      | some id, none =>
        let d' : Document := ("_id", id) :: replacement
        Except.ok (⟨1, if d' = d then 0 else 1⟩, replaceFirst (matchesFilter filter) d' coll)
      | some id, some id' =>
        if id' = id then
          Except.ok (⟨1, if replacement = d then 0 else 1⟩,
            replaceFirst (matchesFilter filter) replacement coll)
        else Except.error ErrImmutableID
      | none, _ =>
        Except.ok (⟨1, if replacement = d then 0 else 1⟩,
          replaceFirst (matchesFilter filter) replacement coll)

/-- The call `DeleteOne(ctx, filter)`: the first matching document is removed. -/
def DeleteOne (opErr : Option String) (coll : Collection) (filter : Document) :
    Except String (DeleteResult × Collection) :=
  match opErr with
  | some e => Except.error e
  | none =>
    match coll.find? (matchesFilter filter) with
    | none => Except.ok (⟨0⟩, coll)
    | some _ => Except.ok (⟨1⟩, coll.eraseP (matchesFilter filter))

/-! ## The request context and the response -/

/-- The part of `gin.Context` a handler reads: the path parameters and the
outcome of `c.BindJSON` into a value of the struct type `β` the handler binds
to (the error of a body that does not decode, or the decoded struct). -/
structure Context (β : Type) where
  Params : List (String × String)
  BindJSON : Except String β

/-- The method `Params.ByName`: the value of the first parameter of that name,
the empty string when there is none. -/
def ByName (ps : List (String × String)) (name : String) : String :=
  match ps with
  | [] => ""
  | (k, v) :: rest => if k = name then v else ByName rest name

/-- What a handler passes to `c.JSON` as the response body. -/
inductive Body where
  /-- The object `gin.H{"error": msg}`. -/
  | error (msg : String)
  /-- The driver's `InsertOneResult` with its `InsertedID`. -/
  | insertResult (InsertedID : Value)
  /-- A slice of documents, `[]bson.M`. -/
  | documents (orders : Slice)
  /-- One document, `bson.M`. -/
  | document (d : Document)
  /-- A count, `int64`. -/
  | count (n : Nat)
  deriving DecidableEq

/-- The response written by `c.JSON(status, body)`. -/
structure Response where
  status : Nat
  body : Body
  deriving DecidableEq

/-- The constant `http.StatusOK`. -/
def StatusOK : Nat := 200

/-- The constant `http.StatusBadRequest`. -/
def StatusBadRequest : Nat := 400

/-- The constant `http.StatusInternalServerError`. -/
def StatusInternalServerError : Nat := 500

/-- The call `validate.Struct(order)`: the validator checks the rules written in
the `validate` tags of the struct's fields. `models.Order` has no such tag on
any field, so there is no rule to check and the result is nil. -/
def validate.Struct (_order : Order) : Option String := none

/-- The local struct `Waiter` of `UpdateWaiter`. -/
structure Waiter where
  Server : Option String
  deriving DecidableEq

/-! ## The handlers of routes/orders.go

The `Access-Control-Allow-Origin` header and the `fmt.Println` lines do not
bear on status, body or collection and are left out. -/

/-- The handler `AddOrder`. -/
def AddOrder (c : Context Order) (env : Env) (coll : Collection) : Response × Collection :=
  match c.BindJSON with
  | Except.error err => (⟨StatusBadRequest, Body.error err⟩, coll)
  | Except.ok order =>
    match validate.Struct order with
    | some validationErr => (⟨StatusBadRequest, Body.error validationErr⟩, coll)
    | none =>
      let order := { order with ID := env.NewObjectID }
      match InsertOne env.opErr coll order with
      | Except.error _ =>
        (⟨StatusInternalServerError, Body.error "order item was not created"⟩, coll)
      | Except.ok (result, coll') => (⟨StatusOK, Body.insertResult result⟩, coll')

/-- The handler `GetOrders`. The declaration `var orders []bson.M` leaves
`orders` nil. -/
def GetOrders {β : Type} (_c : Context β) (env : Env) (coll : Collection) :
    Response × Collection :=
  let orders := Slice.nil
  match Find env.opErr coll [] with
  | Except.error err => (⟨StatusInternalServerError, Body.error err⟩, coll)
  | Except.ok cursor =>
    match Cursor.All env.cursorErr cursor orders with
    | Except.error err => (⟨StatusInternalServerError, Body.error err⟩, coll)
    | Except.ok orders => (⟨StatusOK, Body.documents orders⟩, coll)

/-- The handler `GetOrdersByWaiter`. The declaration `var orders []bson.M`
leaves `orders` nil. -/
def GetOrdersByWaiter {β : Type} (c : Context β) (env : Env) (coll : Collection) :
    Response × Collection :=
  let waiter := ByName c.Params "waiter"
  let orders := Slice.nil
  match Find env.opErr coll [("server", Value.string waiter)] with
  | Except.error err => (⟨StatusInternalServerError, Body.error err⟩, coll)
  | Except.ok cursor =>
    match Cursor.All env.cursorErr cursor orders with
    | Except.error err => (⟨StatusInternalServerError, Body.error err⟩, coll)
    | Except.ok orders => (⟨StatusOK, Body.documents orders⟩, coll)

/-- The handler `GetOrderById`. The error of `ObjectIDFromHex` is dropped. -/
def GetOrderById {β : Type} (c : Context β) (env : Env) (coll : Collection) :
    Response × Collection :=
  let orderID := ByName c.Params "id"
  let docID := (ObjectIDFromHex orderID).1
  match FindOne env.opErr coll [("_id", Value.objectID docID)] with
  | Except.error err => (⟨StatusInternalServerError, Body.error err⟩, coll)
  | Except.ok order => (⟨StatusOK, Body.document order⟩, coll)

/-- The handler `UpdateWaiter`. The error of `ObjectIDFromHex` is dropped. -/
def UpdateWaiter (c : Context Waiter) (env : Env) (coll : Collection) :
    Response × Collection :=
  let orderID := ByName c.Params "id"
  let docID := (ObjectIDFromHex orderID).1
  match c.BindJSON with
  | Except.error err => (⟨StatusBadRequest, Body.error err⟩, coll)
  | Except.ok waiter =>
    match UpdateOne env.opErr coll [("_id", Value.objectID docID)]
        "server" (bsonString waiter.Server) with
    | Except.error err => (⟨StatusInternalServerError, Body.error err⟩, coll)
    | Except.ok (result, coll') => (⟨StatusOK, Body.count result.ModifiedCount⟩, coll')

/-- The handler `UpdateOrder`. The error of `ObjectIDFromHex` is dropped. -/
def UpdateOrder (c : Context Order) (env : Env) (coll : Collection) :
    Response × Collection :=
  let orderID := ByName c.Params "id"
  let docID := (ObjectIDFromHex orderID).1
  match c.BindJSON with
  | Except.error err => (⟨StatusBadRequest, Body.error err⟩, coll)
  | Except.ok order =>
    match validate.Struct order with
    | some validationErr => (⟨StatusBadRequest, Body.error validationErr⟩, coll)
    | none =>
      match ReplaceOne env.opErr coll [("_id", Value.objectID docID)]
          [("dish", bsonString order.Dish), ("price", bsonDouble order.Price),
           ("server", bsonString order.Server), ("table", bsonString order.Table)] with
      | Except.error err => (⟨StatusInternalServerError, Body.error err⟩, coll)
      | Except.ok (result, coll') => (⟨StatusOK, Body.count result.ModifiedCount⟩, coll')

/-- The handler `DeleteOrder`. The error of `ObjectIDFromHex` is dropped. -/
def DeleteOrder {β : Type} (c : Context β) (env : Env) (coll : Collection) :
    Response × Collection :=
  let orderID := ByName c.Params "id"
  let docID := (ObjectIDFromHex orderID).1
  match DeleteOne env.opErr coll [("_id", Value.objectID docID)] with
  | Except.error err => (⟨StatusInternalServerError, Body.error err⟩, coll)
  | Except.ok (result, coll') => (⟨StatusOK, Body.count result.DeletedCount⟩, coll')

/-! ## The routing table of main.go -/

/-- A request as routed by `main`: the handler its method and path select, with
the context that handler is given. -/
inductive Request where
  /-- The route `POST /order/create`. -/
  | AddOrder (c : Context Order)
  /-- The route `GET /waiter/:waiter`. -/
  | GetOrdersByWaiter (c : Context Unit)
  /-- The route `GET /orders`. -/
  | GetOrders (c : Context Unit)
  /-- The route `GET /order/:id/`. -/
  | GetOrderById (c : Context Unit)
  /-- The route `PUT /waiter/update/:id`. -/
  | UpdateWaiter (c : Context Waiter)
  /-- The route `PUT /order/update/:id`. -/
  | UpdateOrder (c : Context Order)
  /-- The route `DELETE /order/delete/:id`. -/
  | DeleteOrder (c : Context Unit)

/-- Serve one request on the collection. -/
def serve (r : Request) (env : Env) (coll : Collection) : Response × Collection :=
  match r with
  | Request.AddOrder c => AddOrder c env coll
  | Request.GetOrdersByWaiter c => GetOrdersByWaiter c env coll
  | Request.GetOrders c => GetOrders c env coll
  | Request.GetOrderById c => GetOrderById c env coll
  | Request.UpdateWaiter c => UpdateWaiter c env coll
  | Request.UpdateOrder c => UpdateOrder c env coll
  | Request.DeleteOrder c => DeleteOrder c env coll

/-- Serve a sequence of requests one after the other, each in its own
environment; the collection that results. -/
def run (coll : Collection) : List (Request × Env) → Collection
  | [] => coll
  | (r, env) :: rest => run (serve r env coll).2 rest

/-! ## Notions used in the statements -/

/-- The `_id` of a document. -/
def Document.id (d : Document) : Option Value := d.get "_id"

/-- The ids of a collection are pairwise distinct. -/
def idsDistinct (coll : Collection) : Prop := (coll.map Document.id).Nodup

instance (coll : Collection) : Decidable (idsDistinct coll) := by
  unfold idsDistinct; infer_instance

/-- The error of binding and validating the body, for the handlers that read
a body; `none` for an accepted body and for the handlers without one. -/
def bodyError : Request → Option String
  | Request.AddOrder c =>
    match c.BindJSON with
    | Except.error e => some e
    | Except.ok order => validate.Struct order
  | Request.UpdateWaiter c =>
    match c.BindJSON with
    | Except.error e => some e
    | Except.ok _ => none
  | Request.UpdateOrder c =>
    match c.BindJSON with
    | Except.error e => some e
    | Except.ok order => validate.Struct order
  | _ => none

/-- The error of an operation's outcome, if it failed. -/
def errorOf {α : Type} : Except String α → Option String
  | Except.error e => some e
  | Except.ok _ => none

/-- The id a handler looks up: the path parameter `id` parsed, or the zero id. -/
def docIDOf {β : Type} (c : Context β) : ObjectID := (ObjectIDFromHex (ByName c.Params "id")).1

/-- The error of the persistence operation that the handler of a request issues
once the body is accepted (for the two listing handlers, of the query or of
draining its cursor). -/
def persistenceError (r : Request) (env : Env) (coll : Collection) : Option String :=
  match r with
  | Request.AddOrder c =>
    match c.BindJSON with
    | Except.error _ => none
    | Except.ok order => errorOf (InsertOne env.opErr coll { order with ID := env.NewObjectID })
  | Request.GetOrdersByWaiter c =>
    match Find env.opErr coll [("server", Value.string (ByName c.Params "waiter"))] with
    | Except.error e => some e
    | Except.ok cursor => errorOf (Cursor.All env.cursorErr cursor Slice.nil)
  | Request.GetOrders _ =>
    match Find env.opErr coll [] with
    | Except.error e => some e
    | Except.ok cursor => errorOf (Cursor.All env.cursorErr cursor Slice.nil)
  | Request.GetOrderById c => errorOf (FindOne env.opErr coll [("_id", Value.objectID (docIDOf c))])
  | Request.UpdateWaiter c =>
    match c.BindJSON with
    | Except.error _ => none
    | Except.ok waiter =>
      errorOf (UpdateOne env.opErr coll [("_id", Value.objectID (docIDOf c))]
        "server" (bsonString waiter.Server))
  | Request.UpdateOrder c =>
    match c.BindJSON with
    | Except.error _ => none
    | Except.ok order =>
      errorOf (ReplaceOne env.opErr coll [("_id", Value.objectID (docIDOf c))]
        [("dish", bsonString order.Dish), ("price", bsonDouble order.Price),
         ("server", bsonString order.Server), ("table", bsonString order.Table)])
  | Request.DeleteOrder c => errorOf (DeleteOne env.opErr coll [("_id", Value.objectID (docIDOf c))])

/-! ## Hex form of an id -/

theorem fromHexChar_hexDigit : ∀ n : Fin 16, fromHexChar (hexDigit n.val) = some n.val := by
  decide

theorem utf8Size_hexDigit : ∀ n : Fin 16, (hexDigit n.val).utf8Size = 1 := by
  decide

theorem hexDecode_hexEncode (bs : List Byte) : hexDecode (hexEncode bs) = some bs := by
  induction bs with
  | nil => rfl
  | cons b bs ih =>
    have h1 := fromHexChar_hexDigit ⟨b.val / 16, by omega⟩
    have h2 := fromHexChar_hexDigit ⟨b.val % 16, by omega⟩
    simp only at h1 h2
    simp only [hexEncode, hexDecode, h1, h2, ih]
    congr 2
    apply Fin.ext
    simp [Fin.ofNat]
    omega

theorem utf8ByteSize_go_hexEncode (bs : List Byte) :
    String.utf8ByteSize.go (hexEncode bs) = 2 * bs.length := by
  induction bs with
  | nil => rfl
  | cons b bs ih =>
    have h1 := utf8Size_hexDigit ⟨b.val / 16, by omega⟩
    have h2 := utf8Size_hexDigit ⟨b.val % 16, by omega⟩
    simp only at h1 h2
    simp only [hexEncode, String.utf8ByteSize.go, h1, h2, ih, List.length_cons]
    omega

/-- Parsing the hex form of an id gives the id back, without error. -/
theorem ObjectIDFromHex_Hex (id : ObjectID) : ObjectIDFromHex id.Hex = (id, none) := by
  obtain ⟨bs, hbs⟩ := id
  have hsize : (String.mk (hexEncode bs)).utf8ByteSize = 24 := by
    show String.utf8ByteSize.go (hexEncode bs) = 24
    rw [utf8ByteSize_go_hexEncode, hbs]
  simp [ObjectIDFromHex, ObjectID.Hex, hsize, hexDecode_hexEncode, hbs]

/-- A parse that reports an error yields the zero id. -/
theorem ObjectIDFromHex_error (s : String) (h : (ObjectIDFromHex s).2 ≠ none) :
    (ObjectIDFromHex s).1 = NilObjectID := by
  unfold ObjectIDFromHex at h ⊢
  split
  · rfl
  · rename_i hsz
    rw [if_neg hsz] at h
    split
    · rfl
    · rename_i bs hbs
      rw [hbs] at h
      by_cases hl : bs.length = 12
      · simp [hl] at h
      · simp [hl]

/-! ## Documents and filters -/

theorem matchesFilter_id (v : ObjectID) (d : Document) :
    matchesFilter [("_id", Value.objectID v)] d = decide (d.get "_id" = some (Value.objectID v)) := by
  simp [matchesFilter]

theorem matchesFilter_server (w : String) (d : Document) :
    matchesFilter [("server", Value.string w)] d
      = decide (d.get "server" = some (Value.string w)) := by
  simp [matchesFilter]

theorem matchesFilter_nil (d : Document) : matchesFilter [] d = true := by
  simp [matchesFilter]

theorem get_set_self (d : Document) (key : String) (v : Value) :
    (d.set key v).get key = some v := by
  induction d with
  | nil => simp [Document.set, Document.get]
  | cons kv rest ih =>
    obtain ⟨k, w⟩ := kv
    by_cases h : k = key
    · simp [Document.set, Document.get, h]
    · simp [Document.set, Document.get, h, ih]

theorem get_set_ne (d : Document) (key k : String) (v : Value) (hk : k ≠ key) :
    (d.set key v).get k = d.get k := by
  induction d with
  | nil =>
    have : ¬ key = k := fun h => hk h.symm
    simp [Document.set, Document.get, this]
  | cons kv rest ih =>
    obtain ⟨k', w⟩ := kv
    by_cases h : k' = key
    · have : ¬ key = k := fun h => hk h.symm
      simp [Document.set, Document.get, h, this]
    · by_cases h2 : k' = k
      · subst h2
        simp [Document.set, Document.get, hk]
      · simp [Document.set, Document.get, h, h2, ih]

/-! ## Collections -/

theorem find?_append_cons (p : Document → Bool) (pre post : Collection) (d : Document)
    (hpre : ∀ e ∈ pre, p e = false) (hd : p d = true) :
    (pre ++ d :: post).find? p = some d := by
  induction pre with
  | nil => simp [List.find?, hd]
  | cons e pre ih =>
    have he : p e = false := hpre e (List.mem_cons_self _ _)
    simp only [List.cons_append, List.find?, he]
    exact ih (fun x hx => hpre x (List.mem_cons_of_mem _ hx))

theorem replaceFirst_append_cons (p : Document → Bool) (pre post : Collection)
    (d d' : Document) (hpre : ∀ e ∈ pre, p e = false) (hd : p d = true) :
    replaceFirst p d' (pre ++ d :: post) = pre ++ d' :: post := by
  induction pre with
  | nil => simp [replaceFirst, hd]
  | cons e pre ih =>
    have he : p e = false := hpre e (List.mem_cons_self _ _)
    simp only [List.cons_append, replaceFirst, he]
    simp [ih (fun x hx => hpre x (List.mem_cons_of_mem _ hx))]

theorem eraseP_append_cons (p : Document → Bool) (pre post : Collection) (d : Document)
    (hpre : ∀ e ∈ pre, p e = false) (hd : p d = true) :
    (pre ++ d :: post).eraseP p = pre ++ post := by
  induction pre with
  | nil => simp [List.eraseP, hd]
  | cons e pre ih =>
    have he : p e = false := hpre e (List.mem_cons_self _ _)
    simp only [List.cons_append, List.eraseP, he]
    simp [ih (fun x hx => hpre x (List.mem_cons_of_mem _ hx))]

/-- A collection in which some document satisfies `p` splits at the first one. -/
theorem split_of_find? (p : Document → Bool) (coll : Collection) (d : Document)
    (h : coll.find? p = some d) :
    ∃ pre post, coll = pre ++ d :: post ∧ (∀ e ∈ pre, p e = false) ∧ p d = true := by
  induction coll with
  | nil => simp at h
  | cons e rest ih =>
    by_cases he : p e = true
    · simp [List.find?, he] at h
      subst h
      exact ⟨[], rest, by simp, by simp, he⟩
    · have he' : p e = false := by simpa using he
      simp only [List.find?, he'] at h
      obtain ⟨pre, post, hsplit, hpre, hd⟩ := ih h
      refine ⟨e :: pre, post, by simp [hsplit], ?_, hd⟩
      intro x hx
      rcases List.mem_cons.mp hx with hx | hx
      · subst hx; exact he'
      · exact hpre x hx

/-- With pairwise distinct ids, the document of a given id is the only one that
matches the filter on that id. -/
theorem split_of_distinct (coll : Collection) (d : Document) (v : ObjectID)
    (hdist : idsDistinct coll) (hmem : d ∈ coll) (hid : d.get "_id" = some (Value.objectID v)) :
    ∃ pre post, coll = pre ++ d :: post ∧
      (∀ e ∈ pre, matchesFilter [("_id", Value.objectID v)] e = false) ∧
      (∀ e ∈ post, matchesFilter [("_id", Value.objectID v)] e = false) ∧
      matchesFilter [("_id", Value.objectID v)] d = true := by
  obtain ⟨pre, post, hsplit⟩ := List.append_of_mem hmem
  subst hsplit
  unfold idsDistinct at hdist
  rw [List.map_append, List.map_cons, List.nodup_append] at hdist
  obtain ⟨_, hcons, hdisj⟩ := hdist
  rw [List.nodup_cons] at hcons
  refine ⟨pre, post, rfl, ?_, ?_, ?_⟩
  · intro e he
    rw [matchesFilter_id]
    simp only [decide_eq_false_iff_not]
    intro hmatch
    have h1 : Document.id e ∈ pre.map Document.id := List.mem_map_of_mem _ he
    have h2 : Document.id e ∈ Document.id d :: post.map Document.id := by
      have : Document.id e = Document.id d := by
        unfold Document.id; rw [hmatch, hid]
      rw [this]; exact List.mem_cons_self _ _
    exact hdisj h1 h2
  · intro e he
    rw [matchesFilter_id]
    simp only [decide_eq_false_iff_not]
    intro hmatch
    apply hcons.1
    have : Document.id d = Document.id e := by
      unfold Document.id; rw [hmatch, hid]
    rw [this]
    exact List.mem_map_of_mem _ he
  · rw [matchesFilter_id]; simp [hid]

theorem find?_none_of_no_match (p : Document → Bool) (coll : Collection)
    (h : ∀ e ∈ coll, p e = false) : coll.find? p = none := by
  induction coll with
  | nil => rfl
  | cons e rest ih =>
    have he : p e = false := h e (List.mem_cons_self _ _)
    simp only [List.find?, he]
    exact ih (fun x hx => h x (List.mem_cons_of_mem _ hx))

theorem any_id_false_iff (coll : Collection) (v : Value) :
    coll.any (fun d => decide (d.get "_id" = some v)) = false ↔
      ∀ d ∈ coll, d.get "_id" ≠ some v := by
  simp [List.any_eq_false]

/-! ## What a successful AddOrder did -/

/-- A 200 from `AddOrder` means the generated id was unused and the marshalled
order, under the generated id, was added at the end of the collection. -/
theorem AddOrder_ok (c : Context Order) (env : Env) (coll : Collection) (o : Order)
    (hdec : c.BindJSON = Except.ok o)
    (hok : (AddOrder c env coll).1.status = StatusOK) :
    (∀ d ∈ coll, d.get "_id" ≠ some (Value.objectID env.NewObjectID)) ∧
    AddOrder c env coll =
      (⟨StatusOK, Body.insertResult (Value.objectID env.NewObjectID)⟩,
        coll ++ [Order.toBSON { o with ID := env.NewObjectID }]) := by
  unfold AddOrder at hok ⊢
  simp only [hdec, validate.Struct] at hok ⊢
  unfold InsertOne at hok ⊢
  cases hop : env.opErr with
  | some e => simp [hop, StatusInternalServerError, StatusOK] at hok
  | none =>
    simp only [hop] at hok ⊢
    by_cases hany : coll.any (fun d => decide (d.get "_id" = some (Value.objectID env.NewObjectID))) = true
    · simp [hany, StatusInternalServerError, StatusOK] at hok
    · have hany' := (any_id_false_iff coll (Value.objectID env.NewObjectID)).mp (by simpa using hany)
      refine ⟨hany', ?_⟩
      simp [hany]

/-- Claim C1. Round trip of AddOrder and GetOrderById: when a body decodes to
`o` (validation has no rule that could reject it) and AddOrder responds 200 with
assigned id `i`, GetOrderById called with the hex form of `i` on the resulting
collection, the store answering, responds 200 with a document whose `_id` is
`i` and whose dish, price, server and table are exactly those of `o`: a field
that `o` has is stored with that string or number, a field that `o` leaves out
is null. -/
theorem AddOrder_GetOrderById_roundtrip {β : Type} (c : Context Order) (env : Env)
    (coll : Collection) (o : Order) (i : ObjectID) (c' : Context β) (env' : Env)
    (hdec : c.BindJSON = Except.ok o)
    (hok : (AddOrder c env coll).1 = ⟨StatusOK, Body.insertResult (Value.objectID i)⟩)
    (hparam : ByName c'.Params "id" = i.Hex)
    (hop' : env'.opErr = none) :
    ∃ d : Document,
      GetOrderById c' env' (AddOrder c env coll).2
        = (⟨StatusOK, Body.document d⟩, (AddOrder c env coll).2) ∧
      d.get "_id" = some (Value.objectID i) ∧
      (∀ s, o.Dish = some s → d.get "dish" = some (Value.string s)) ∧
      (∀ x, o.Price = some x → d.get "price" = some (Value.double x)) ∧
      (∀ s, o.Server = some s → d.get "server" = some (Value.string s)) ∧
      (∀ s, o.Table = some s → d.get "table" = some (Value.string s)) ∧
      (o.Dish = none → d.get "dish" = some Value.null) ∧
      (o.Price = none → d.get "price" = some Value.null) ∧
      (o.Server = none → d.get "server" = some Value.null) ∧
      (o.Table = none → d.get "table" = some Value.null) ∧
      (∀ k : String, k ≠ "_id" → k ≠ "dish" → k ≠ "price" → k ≠ "server" → k ≠ "table" →
        d.get k = none) := by
  have hst : (AddOrder c env coll).1.status = StatusOK := by rw [hok]
  obtain ⟨hfresh, hres⟩ := AddOrder_ok c env coll o hdec hst
  have hi : i = env.NewObjectID := by
    rw [hres] at hok
    simp only [Response.mk.injEq, Body.insertResult.injEq, Value.objectID.injEq, true_and] at hok
    exact hok.symm
  subst hi
  refine ⟨Order.toBSON { o with ID := env.NewObjectID }, ?_, ?_⟩
  · rw [hres]
    unfold GetOrderById FindOne
    simp only [hparam, ObjectIDFromHex_Hex, hop']
    have hfind : (coll ++ [Order.toBSON { o with ID := env.NewObjectID }]).find?
        (matchesFilter [("_id", Value.objectID env.NewObjectID)])
        = some (Order.toBSON { o with ID := env.NewObjectID }) := by
      apply find?_append_cons
      · intro e he
        rw [matchesFilter_id]
        simpa using hfresh e he
      · rw [matchesFilter_id]
        simp [Order.toBSON, Document.get]
    rw [hfind]
  · refine ⟨?_, ?_, ?_, ?_, ?_, ?_, ?_, ?_, ?_, ?_⟩
    · simp [Order.toBSON, Document.get]
    · intro s h; simp [Order.toBSON, Document.get, h, bsonString]
    · intro x h; simp [Order.toBSON, Document.get, h, bsonDouble]
    · intro s h; simp [Order.toBSON, Document.get, h, bsonString]
    · intro s h; simp [Order.toBSON, Document.get, h, bsonString]
    · intro h; simp [Order.toBSON, Document.get, h, bsonString]
    · intro h; simp [Order.toBSON, Document.get, h, bsonDouble]
    · intro h; simp [Order.toBSON, Document.get, h, bsonString]
    · intro h; simp [Order.toBSON, Document.get, h, bsonString]
    · intro k h1 h2 h3 h4 h5
      simp [Order.toBSON, Document.get, Ne.symm h1, Ne.symm h2, Ne.symm h3, Ne.symm h4,
        Ne.symm h5]

/-- Witness of C1: an order for pasta at table T1, with no server named, is
added to the empty collection under the id `07…07` and read back by the hex
form of that id. -/
theorem AddOrder_GetOrderById_roundtrip_witness :
    ∃ d : Document,
      GetOrderById (⟨[("id", "070707070707070707070707")], Except.ok ()⟩ : Context Unit)
          ⟨NilObjectID, none, none⟩
          (AddOrder ⟨[], Except.ok ⟨NilObjectID, some "Pasta", some ⟨12⟩, none, some "T1"⟩⟩
            ⟨⟨List.replicate 12 7, rfl⟩, none, none⟩ []).2
        = (⟨StatusOK, Body.document d⟩,
          (AddOrder ⟨[], Except.ok ⟨NilObjectID, some "Pasta", some ⟨12⟩, none, some "T1"⟩⟩
            ⟨⟨List.replicate 12 7, rfl⟩, none, none⟩ []).2) ∧
      d.get "_id" = some (Value.objectID ⟨List.replicate 12 7, rfl⟩) ∧
      d.get "dish" = some (Value.string "Pasta") ∧
      d.get "price" = some (Value.double ⟨12⟩) ∧
      d.get "server" = some Value.null ∧
      d.get "table" = some (Value.string "T1") :=
  match AddOrder_GetOrderById_roundtrip
    ⟨[], Except.ok ⟨NilObjectID, some "Pasta", some ⟨12⟩, none, some "T1"⟩⟩
    ⟨⟨List.replicate 12 7, rfl⟩, none, none⟩ []
    ⟨NilObjectID, some "Pasta", some ⟨12⟩, none, some "T1"⟩
    ⟨List.replicate 12 7, rfl⟩
    (⟨[("id", "070707070707070707070707")], Except.ok ()⟩ : Context Unit)
    ⟨NilObjectID, none, none⟩
    rfl (by decide) (by decide) rfl with
  | ⟨d, h0, h1, h2, h3, _, h5, _, _, h8, _, _⟩ =>
    ⟨d, h0, h1, h2 "Pasta" rfl, h3 ⟨12⟩ rfl, h8 rfl, h5 "T1" rfl⟩

/-- Claim C2, as the code has it. GetOrdersByWaiter, the store answering,
responds 200 with exactly the documents of the collection whose `server` is the
string `name`, in the order of the collection: every returned document has
that server and every document with that server is returned; the collection is
not changed. When none matches the response is still 200 and no error, and its
body is the nil slice, which is written as JSON `null`; when some document
matches the body is the slice of the matching documents. -/
theorem GetOrdersByWaiter_exact {β : Type} (c : Context β) (env : Env) (coll : Collection)
    (name : String)
    (hname : ByName c.Params "waiter" = name)
    (hop : env.opErr = none) (hcur : env.cursorErr = none) :
    ∃ orders : Slice,
      GetOrdersByWaiter c env coll = (⟨StatusOK, Body.documents orders⟩, coll) ∧
      orders.toList = coll.filter (fun d : Document => decide (d.get "server" = some (Value.string name))) ∧
      (∀ d ∈ orders.toList, d.get "server" = some (Value.string name)) ∧
      (∀ d ∈ coll, d.get "server" = some (Value.string name) → d ∈ orders.toList) ∧
      (∀ d ∈ orders.toList, d ∈ coll) ∧
      ((∀ d ∈ coll, d.get "server" ≠ some (Value.string name)) →
        orders = Slice.nil ∧ orders.isJSONNull = true) ∧
      ((∃ d ∈ coll, d.get "server" = some (Value.string name)) →
        orders = Slice.elems
          (coll.filter (fun d : Document => decide (d.get "server" = some (Value.string name)))) ∧
        orders.isJSONNull = false) := by
  have hfilter : matchesFilter [("server", Value.string name)]
      = fun d : Document => decide (d.get "server" = some (Value.string name)) :=
    funext (matchesFilter_server name)
  have hres : GetOrdersByWaiter c env coll
      = (⟨StatusOK, Body.documents
          (match coll.filter (fun d : Document => decide (d.get "server" = some (Value.string name))) with
            | [] => Slice.nil
            | d :: ds => Slice.elems (d :: ds))⟩, coll) := by
    unfold GetOrdersByWaiter Find Cursor.All
    simp only [hop, hcur, hname, hfilter]
    cases coll.filter (fun d : Document => decide (d.get "server" = some (Value.string name))) with
    | nil => rfl
    | cons d ds => rfl
  have hlist : (match coll.filter
        (fun d : Document => decide (d.get "server" = some (Value.string name))) with
      | [] => Slice.nil
      | d :: ds => Slice.elems (d :: ds)).toList
      = coll.filter (fun d : Document => decide (d.get "server" = some (Value.string name))) := by
    cases coll.filter (fun d : Document => decide (d.get "server" = some (Value.string name))) with
    | nil => rfl
    | cons d ds => rfl
  refine ⟨_, hres, hlist, ?_, ?_, ?_, ?_, ?_⟩
  · intro d hd
    rw [hlist] at hd
    simpa using (List.mem_filter.mp hd).2
  · intro d hd hs
    rw [hlist]
    exact List.mem_filter.mpr ⟨hd, by simpa using hs⟩
  · intro d hd
    rw [hlist] at hd
    exact (List.mem_filter.mp hd).1
  · intro hnone
    have hnil : coll.filter (fun d : Document => decide (d.get "server" = some (Value.string name)))
        = [] := by
      apply List.filter_eq_nil_iff.mpr
      intro d hd
      simpa using hnone d hd
    rw [hnil]
    exact ⟨rfl, rfl⟩
  · intro hsome
    obtain ⟨d, hd, hs⟩ := hsome
    have hmem : d ∈ coll.filter (fun d : Document => decide (d.get "server" = some (Value.string name))) :=
      List.mem_filter.mpr ⟨hd, by simpa using hs⟩
    cases hf : coll.filter (fun d : Document => decide (d.get "server" = some (Value.string name))) with
    | nil => rw [hf] at hmem; cases hmem
    | cons e es => exact ⟨rfl, rfl⟩

/-- Witness of C2 as amended: of three orders, the two served by Alice are
returned. -/
theorem GetOrdersByWaiter_exact_witness :
    ∃ orders : Slice,
      GetOrdersByWaiter (⟨[("waiter", "Alice")], Except.ok ()⟩ : Context Unit)
          ⟨NilObjectID, none, none⟩
          [[("_id", Value.objectID ⟨List.replicate 12 1, rfl⟩), ("server", Value.string "Alice")],
           [("_id", Value.objectID ⟨List.replicate 12 2, rfl⟩), ("server", Value.string "Bob")],
           [("_id", Value.objectID ⟨List.replicate 12 3, rfl⟩), ("server", Value.string "Alice")]]
        = (⟨StatusOK, Body.documents orders⟩,
          [[("_id", Value.objectID ⟨List.replicate 12 1, rfl⟩), ("server", Value.string "Alice")],
           [("_id", Value.objectID ⟨List.replicate 12 2, rfl⟩), ("server", Value.string "Bob")],
           [("_id", Value.objectID ⟨List.replicate 12 3, rfl⟩), ("server", Value.string "Alice")]]) ∧
      orders.toList
        = [[("_id", Value.objectID ⟨List.replicate 12 1, rfl⟩), ("server", Value.string "Alice")],
           [("_id", Value.objectID ⟨List.replicate 12 3, rfl⟩), ("server", Value.string "Alice")]] :=
  match GetOrdersByWaiter_exact (⟨[("waiter", "Alice")], Except.ok ()⟩ : Context Unit)
    ⟨NilObjectID, none, none⟩
    [[("_id", Value.objectID ⟨List.replicate 12 1, rfl⟩), ("server", Value.string "Alice")],
     [("_id", Value.objectID ⟨List.replicate 12 2, rfl⟩), ("server", Value.string "Bob")],
     [("_id", Value.objectID ⟨List.replicate 12 3, rfl⟩), ("server", Value.string "Alice")]]
    "Alice" (by decide) rfl rfl with
  | ⟨orders, h1, h2, _⟩ => ⟨orders, h1, by rw [h2]; decide⟩

/-- Counterexample to C2 as stated: no order is served by Dave, and the body of
the 200 response is the nil slice, written as JSON `null`; it is not the empty
sequence `[]`. -/
theorem GetOrdersByWaiter_no_match_is_nil :
    GetOrdersByWaiter (⟨[("waiter", "Dave")], Except.ok ()⟩ : Context Unit)
        ⟨NilObjectID, none, none⟩
        [[("_id", Value.objectID ⟨List.replicate 12 1, rfl⟩), ("server", Value.string "Alice")]]
      = (⟨StatusOK, Body.documents Slice.nil⟩,
        [[("_id", Value.objectID ⟨List.replicate 12 1, rfl⟩), ("server", Value.string "Alice")]]) ∧
    Body.documents Slice.nil ≠ Body.documents (Slice.elems []) ∧
    Slice.isJSONNull Slice.nil = true ∧
    Slice.isJSONNull (Slice.elems []) = false := by
  decide

/-- A lookup by id that finds `d` splits the collection at `d`, the first
document of that id. -/
theorem split_of_FindOne (coll : Collection) (v : ObjectID) (d : Document)
    (h : FindOne none coll [("_id", Value.objectID v)] = Except.ok d) :
    ∃ pre post, coll = pre ++ d :: post ∧
      (∀ e ∈ pre, matchesFilter [("_id", Value.objectID v)] e = false) ∧
      matchesFilter [("_id", Value.objectID v)] d = true ∧
      d.get "_id" = some (Value.objectID v) := by
  have hfind : coll.find? (matchesFilter [("_id", Value.objectID v)]) = some d := by
    unfold FindOne at h
    simp only at h
    cases hf : coll.find? (matchesFilter [("_id", Value.objectID v)]) with
    | none => rw [hf] at h; cases h
    | some d0 =>
      rw [hf] at h
      cases h
      rfl
  obtain ⟨pre, post, hsplit, hpre, hd⟩ := split_of_find? _ coll d hfind
  refine ⟨pre, post, hsplit, hpre, hd, ?_⟩
  rw [matchesFilter_id] at hd
  simpa using hd

/-- The lookup of `GetOrderById` on a collection split at the one document that
matches the id. -/
theorem GetOrderById_split {β : Type} (c' : Context β) (env' : Env) (pre post : Collection)
    (d' : Document) (v : ObjectID)
    (hv : docIDOf c' = v) (hop' : env'.opErr = none)
    (hpre : ∀ e ∈ pre, matchesFilter [("_id", Value.objectID v)] e = false)
    (hd' : matchesFilter [("_id", Value.objectID v)] d' = true) :
    GetOrderById c' env' (pre ++ d' :: post)
      = (⟨StatusOK, Body.document d'⟩, pre ++ d' :: post) := by
  unfold GetOrderById FindOne
  unfold docIDOf at hv
  simp only [hv, hop']
  rw [find?_append_cons _ pre post d' hpre hd']

/-- Claim C3. UpdateWaiter is a partial update: for every collection, when the
id matches the document `d` (the lookup by that id finds `d`) and the body is
`{server: newName}`, the update (the store answering) responds 200, and a
GetOrderById of the same id afterwards returns a document whose server is
`newName` and whose every other field (`_id`, dish, price, table) is that of
`d`; the collection differs from the old one in that document only. -/
theorem UpdateWaiter_sets_server_only {β : Type} (c : Context Waiter) (env : Env) (coll : Collection)
    (d : Document) (newName : String) (c' : Context β) (env' : Env)
    (hmatch : FindOne none coll [("_id", Value.objectID (docIDOf c))] = Except.ok d)
    (hbody : c.BindJSON = Except.ok ⟨some newName⟩)
    (hop : env.opErr = none)
    (hparam : ByName c'.Params "id" = ByName c.Params "id")
    (hop' : env'.opErr = none) :
    ∃ (d' : Document) (pre post : Collection),
      coll = pre ++ d :: post ∧
      (UpdateWaiter c env coll).2 = pre ++ d' :: post ∧
      (UpdateWaiter c env coll).1.status = StatusOK ∧
      GetOrderById c' env' (UpdateWaiter c env coll).2
        = (⟨StatusOK, Body.document d'⟩, (UpdateWaiter c env coll).2) ∧
      d'.get "server" = some (Value.string newName) ∧
      (∀ k : String, k ≠ "server" → d'.get k = d.get k) := by
  obtain ⟨pre, post, hsplit, hpre, hd, hid⟩ := split_of_FindOne coll (docIDOf c) d hmatch
  have hidset : (d.set "server" (Value.string newName)).get "_id" = d.get "_id" :=
    get_set_ne d "server" "_id" _ (by decide)
  have hres : UpdateWaiter c env coll
      = (⟨StatusOK, Body.count (if d.set "server" (Value.string newName) = d then 0 else 1)⟩,
          pre ++ d.set "server" (Value.string newName) :: post) := by
    unfold UpdateWaiter UpdateOne
    simp only [hbody, hop]
    have hfind := find?_append_cons _ pre post d hpre hd
    rw [← hsplit] at hfind
    unfold docIDOf at hfind
    simp only [hfind, bsonString, hidset, ne_eq, not_true_eq_false, if_false]
    have hrep := replaceFirst_append_cons _ pre post d
      (d.set "server" (Value.string newName)) hpre hd
    rw [← hsplit] at hrep
    unfold docIDOf at hrep
    rw [hrep]
  refine ⟨d.set "server" (Value.string newName), pre, post, hsplit, by rw [hres], by rw [hres],
    ?_, get_set_self d _ _, fun k hk => get_set_ne d "server" k _ hk⟩
  rw [hres]
  apply GetOrderById_split c' env' pre post _ (docIDOf c) _ hop' hpre
  · rw [matchesFilter_id, hidset, hid]; simp
  · unfold docIDOf; rw [hparam]

/-- Witness of C3: the second of two orders passes from Bob to Carol. -/
theorem UpdateWaiter_sets_server_only_witness :
    ∃ (d' : Document) (pre post : Collection),
      ([[("_id", Value.objectID ⟨List.replicate 12 1, rfl⟩), ("dish", Value.string "Soup"),
          ("server", Value.string "Alice")],
        [("_id", Value.objectID ⟨List.replicate 12 2, rfl⟩), ("dish", Value.string "Pasta"),
          ("server", Value.string "Bob")]] : Collection)
        = pre ++ [("_id", Value.objectID ⟨List.replicate 12 2, rfl⟩),
            ("dish", Value.string "Pasta"), ("server", Value.string "Bob")] :: post ∧
      (UpdateWaiter ⟨[("id", "020202020202020202020202")], Except.ok ⟨some "Carol"⟩⟩
        ⟨NilObjectID, none, none⟩
        [[("_id", Value.objectID ⟨List.replicate 12 1, rfl⟩), ("dish", Value.string "Soup"),
          ("server", Value.string "Alice")],
        [("_id", Value.objectID ⟨List.replicate 12 2, rfl⟩), ("dish", Value.string "Pasta"),
          ("server", Value.string "Bob")]]).2 = pre ++ d' :: post ∧
      d'.get "server" = some (Value.string "Carol") ∧
      d'.get "dish" = some (Value.string "Pasta") :=
  let h := UpdateWaiter_sets_server_only
    ⟨[("id", "020202020202020202020202")], Except.ok ⟨some "Carol"⟩⟩
    ⟨NilObjectID, none, none⟩
    [[("_id", Value.objectID ⟨List.replicate 12 1, rfl⟩), ("dish", Value.string "Soup"),
      ("server", Value.string "Alice")],
     [("_id", Value.objectID ⟨List.replicate 12 2, rfl⟩), ("dish", Value.string "Pasta"),
      ("server", Value.string "Bob")]]
    [("_id", Value.objectID ⟨List.replicate 12 2, rfl⟩), ("dish", Value.string "Pasta"),
      ("server", Value.string "Bob")]
    "Carol"
    (⟨[("id", "020202020202020202020202")], Except.ok ()⟩ : Context Unit)
    ⟨NilObjectID, none, none⟩
    rfl rfl rfl rfl rfl
  match h with
  | ⟨d', pre, post, h1, h2, _, _, h5, h6⟩ =>
    ⟨d', pre, post, h1, h2, h5, by rw [h6 "dish" (by decide)]; rfl⟩

/-- Claim C4, as the code has it. UpdateOrder is a full replace: for every
collection, when the id matches the document `d` (the lookup by that id finds
`d`) and the body decodes to `o2`, the update (the store answering) responds 200, and a
GetOrderById of the same id afterwards returns a document with the same `_id`
whose dish, price, server and table are exactly those of `o2`: a field that
`o2` has is stored with that string or number, a field that `o2` omits is
stored under its key as null; no other key of `d` is kept, and the collection
differs from the old one in that document only. -/
theorem UpdateOrder_replace {β : Type} (c : Context Order) (env : Env) (coll : Collection)
    (d : Document) (o2 : Order) (c' : Context β) (env' : Env)
    (hmatch : FindOne none coll [("_id", Value.objectID (docIDOf c))] = Except.ok d)
    (hbody : c.BindJSON = Except.ok o2)
    (hop : env.opErr = none)
    (hparam : ByName c'.Params "id" = ByName c.Params "id")
    (hop' : env'.opErr = none) :
    ∃ (d' : Document) (pre post : Collection),
      coll = pre ++ d :: post ∧
      (UpdateOrder c env coll).2 = pre ++ d' :: post ∧
      (UpdateOrder c env coll).1.status = StatusOK ∧
      GetOrderById c' env' (UpdateOrder c env coll).2
        = (⟨StatusOK, Body.document d'⟩, (UpdateOrder c env coll).2) ∧
      d'.get "_id" = d.get "_id" ∧
      d'.get "_id" = some (Value.objectID (docIDOf c)) ∧
      (∀ s, o2.Dish = some s → d'.get "dish" = some (Value.string s)) ∧
      (∀ x, o2.Price = some x → d'.get "price" = some (Value.double x)) ∧
      (∀ s, o2.Server = some s → d'.get "server" = some (Value.string s)) ∧
      (∀ s, o2.Table = some s → d'.get "table" = some (Value.string s)) ∧
      (o2.Dish = none → d'.get "dish" = some Value.null) ∧
      (o2.Price = none → d'.get "price" = some Value.null) ∧
      (o2.Server = none → d'.get "server" = some Value.null) ∧
      (o2.Table = none → d'.get "table" = some Value.null) ∧
      (∀ k : String, k ≠ "_id" → k ≠ "dish" → k ≠ "price" → k ≠ "server" → k ≠ "table" →
        d'.get k = none) := by
  obtain ⟨pre, post, hsplit, hpre, hd, hid⟩ := split_of_FindOne coll (docIDOf c) d hmatch
  have hres : UpdateOrder c env coll
      = (⟨StatusOK, Body.count
            (if (("_id", Value.objectID (docIDOf c)) ::
                [("dish", bsonString o2.Dish), ("price", bsonDouble o2.Price),
                 ("server", bsonString o2.Server), ("table", bsonString o2.Table)] : Document) = d
              then 0 else 1)⟩,
          pre ++ (("_id", Value.objectID (docIDOf c)) ::
                [("dish", bsonString o2.Dish), ("price", bsonDouble o2.Price),
                 ("server", bsonString o2.Server), ("table", bsonString o2.Table)]) :: post) := by
    unfold UpdateOrder ReplaceOne
    simp only [hbody, hop, validate.Struct]
    have hfind := find?_append_cons _ pre post d hpre hd
    rw [← hsplit] at hfind
    unfold docIDOf at hfind
    have hid' := hid
    unfold docIDOf at hid'
    have hnoid : Document.get [("dish", bsonString o2.Dish), ("price", bsonDouble o2.Price),
        ("server", bsonString o2.Server), ("table", bsonString o2.Table)] "_id" = none := by
      simp [Document.get]
    simp only [hfind, hid', hnoid]
    have hrep := replaceFirst_append_cons _ pre post d
      (("_id", Value.objectID (docIDOf c)) ::
        [("dish", bsonString o2.Dish), ("price", bsonDouble o2.Price),
         ("server", bsonString o2.Server), ("table", bsonString o2.Table)]) hpre hd
    rw [← hsplit] at hrep
    unfold docIDOf at hrep
    rw [hrep]
    rfl
  refine ⟨_, pre, post, hsplit, by rw [hres], by rw [hres], ?_, ?_, ?_, ?_, ?_, ?_, ?_, ?_, ?_,
    ?_, ?_, ?_⟩
  · rw [hres]
    apply GetOrderById_split c' env' pre post _ (docIDOf c) _ hop' hpre
    · rw [matchesFilter_id]; simp [Document.get]
    · unfold docIDOf; rw [hparam]
  · rw [hid]; simp [Document.get]
  · simp [Document.get]
  · intro s h; simp [Document.get, h, bsonString]
  · intro x h; simp [Document.get, h, bsonDouble]
  · intro s h; simp [Document.get, h, bsonString]
  · intro s h; simp [Document.get, h, bsonString]
  · intro h; simp [Document.get, h, bsonString]
  · intro h; simp [Document.get, h, bsonDouble]
  · intro h; simp [Document.get, h, bsonString]
  · intro h; simp [Document.get, h, bsonString]
  · intro k h1 h2 h3 h4 h5
    simp [Document.get, Ne.symm h1, Ne.symm h2, Ne.symm h3, Ne.symm h4, Ne.symm h5]

/-- Witness of C4 as amended: an order is replaced by a body that names the
price and the server only; these two are stored as given, dish and table are
null afterwards and the old key `note` is gone. -/
theorem UpdateOrder_replace_witness :
    ∃ (d' : Document) (pre post : Collection),
      (UpdateOrder
        ⟨[("id", "020202020202020202020202")],
          Except.ok ⟨NilObjectID, none, some ⟨15⟩, some "Carol", none⟩⟩
        ⟨NilObjectID, none, none⟩
        [[("_id", Value.objectID ⟨List.replicate 12 2, rfl⟩), ("dish", Value.string "Pasta"),
          ("server", Value.string "Bob"), ("note", Value.string "no salt")]]).2
        = pre ++ d' :: post ∧
      d'.get "_id" = some (Value.objectID ⟨List.replicate 12 2, rfl⟩) ∧
      d'.get "price" = some (Value.double ⟨15⟩) ∧
      d'.get "server" = some (Value.string "Carol") ∧
      d'.get "dish" = some Value.null ∧
      d'.get "table" = some Value.null ∧
      d'.get "note" = none :=
  match UpdateOrder_replace
    ⟨[("id", "020202020202020202020202")],
      Except.ok ⟨NilObjectID, none, some ⟨15⟩, some "Carol", none⟩⟩
    ⟨NilObjectID, none, none⟩
    [[("_id", Value.objectID ⟨List.replicate 12 2, rfl⟩), ("dish", Value.string "Pasta"),
      ("server", Value.string "Bob"), ("note", Value.string "no salt")]]
    [("_id", Value.objectID ⟨List.replicate 12 2, rfl⟩), ("dish", Value.string "Pasta"),
      ("server", Value.string "Bob"), ("note", Value.string "no salt")]
    ⟨NilObjectID, none, some ⟨15⟩, some "Carol", none⟩
    (⟨[("id", "020202020202020202020202")], Except.ok ()⟩ : Context Unit)
    ⟨NilObjectID, none, none⟩
    rfl rfl rfl rfl rfl with
  | ⟨d', pre, post, _, h2, _, _, _, h6, _, h8, h9, _, h11, _, _, h14, h15⟩ =>
    ⟨d', pre, post, h2, by rw [h6]; decide, h8 ⟨15⟩ rfl, h9 "Carol" rfl, h11 rfl, h14 rfl,
      h15 "note" (by decide) (by decide) (by decide) (by decide) (by decide)⟩

/-- Counterexample to C4 as stated: after UpdateOrder with a body that names the
server only, GetOrderById returns a document that still has the key `dish`,
stored with the value null; the omitted field is not absent from the stored
document. -/
theorem UpdateOrder_omitted_field_not_absent :
    (UpdateOrder
      ⟨[("id", "020202020202020202020202")],
        Except.ok ⟨NilObjectID, none, none, some "Carol", none⟩⟩
      ⟨NilObjectID, none, none⟩
      [[("_id", Value.objectID ⟨List.replicate 12 2, rfl⟩), ("dish", Value.string "Pasta"),
        ("price", Value.double ⟨12⟩), ("server", Value.string "Bob"),
        ("table", Value.string "T1")]]).1 = ⟨StatusOK, Body.count 1⟩ ∧
    (GetOrderById (⟨[("id", "020202020202020202020202")], Except.ok ()⟩ : Context Unit)
      ⟨NilObjectID, none, none⟩
      (UpdateOrder
        ⟨[("id", "020202020202020202020202")],
          Except.ok ⟨NilObjectID, none, none, some "Carol", none⟩⟩
        ⟨NilObjectID, none, none⟩
        [[("_id", Value.objectID ⟨List.replicate 12 2, rfl⟩), ("dish", Value.string "Pasta"),
          ("price", Value.double ⟨12⟩), ("server", Value.string "Bob"),
          ("table", Value.string "T1")]]).2).1
      = ⟨StatusOK, Body.document
          [("_id", Value.objectID ⟨List.replicate 12 2, rfl⟩), ("dish", Value.null),
           ("price", Value.null), ("server", Value.string "Carol"), ("table", Value.null)]⟩ ∧
    Document.get
      [("_id", Value.objectID ⟨List.replicate 12 2, rfl⟩), ("dish", Value.null),
       ("price", Value.null), ("server", Value.string "Carol"), ("table", Value.null)] "dish"
      ≠ none := by
  decide

/-- Claim C5. In a collection with pairwise distinct ids, after DeleteOrder
succeeds with deleted count 1, a GetOrderById of the same id on the resulting
collection responds 500, with the not-found error of the driver when the store
answers, and the resulting collection is the old one without the document of
that id: every document with another id is still there, unchanged and in its
place. -/
theorem DeleteOrder_then_GetOrderById {β γ : Type} (c : Context β) (env : Env)
    (coll : Collection) (c' : Context γ) (env' : Env)
    (hdist : idsDistinct coll)
    (hdel : (DeleteOrder c env coll).1 = ⟨StatusOK, Body.count 1⟩)
    (hparam : ByName c'.Params "id" = ByName c.Params "id") :
    (GetOrderById c' env' (DeleteOrder c env coll).2).1.status = StatusInternalServerError ∧
    (env'.opErr = none →
      (GetOrderById c' env' (DeleteOrder c env coll).2).1.body = Body.error ErrNoDocuments) ∧
    (∃ (d : Document) (pre post : Collection),
      d.get "_id" = some (Value.objectID (docIDOf c)) ∧
      coll = pre ++ d :: post ∧ (DeleteOrder c env coll).2 = pre ++ post) ∧
    (∀ e ∈ coll, e.get "_id" ≠ some (Value.objectID (docIDOf c)) →
      e ∈ (DeleteOrder c env coll).2) ∧
    (DeleteOrder c env coll).2
      = coll.filter (fun e => decide (e.get "_id" ≠ some (Value.objectID (docIDOf c)))) := by
  -- the deletion found a document
  have hfound : ∃ d, coll.find? (matchesFilter [("_id", Value.objectID (docIDOf c))]) = some d ∧
      env.opErr = none := by
    unfold DeleteOrder DeleteOne at hdel
    cases hop : env.opErr with
    | some e => simp [hop, StatusInternalServerError, StatusOK] at hdel
    | none =>
      simp only [hop] at hdel
      cases hf : coll.find? (matchesFilter [("_id", Value.objectID (docIDOf c))]) with
      | none =>
        unfold docIDOf at hf
        simp [hf] at hdel
      | some d => exact ⟨d, rfl, rfl⟩
  obtain ⟨d, hfind, hop⟩ := hfound
  obtain ⟨pre0, post0, hsplit0, _, hd0⟩ := split_of_find? _ coll d hfind
  have hmem : d ∈ coll := by rw [hsplit0]; simp
  have hid : d.get "_id" = some (Value.objectID (docIDOf c)) := by
    rw [matchesFilter_id] at hd0; simpa using hd0
  obtain ⟨pre, post, hsplit, hpre, hpost, hd⟩ :=
    split_of_distinct coll d (docIDOf c) hdist hmem hid
  have hres : (DeleteOrder c env coll).2 = pre ++ post := by
    unfold DeleteOrder DeleteOne
    unfold docIDOf at hfind
    simp only [hop, hfind]
    have := eraseP_append_cons _ pre post d hpre hd
    rw [← hsplit] at this
    unfold docIDOf at this
    exact this
  have hnone : (pre ++ post).find? (matchesFilter [("_id", Value.objectID (docIDOf c))]) = none := by
    apply find?_none_of_no_match
    intro e he
    rcases List.mem_append.mp he with h | h
    · exact hpre e h
    · exact hpost e h
  have hget : ∀ e, env'.opErr = e → (GetOrderById c' env' (pre ++ post)).1
      = ⟨StatusInternalServerError, Body.error (e.getD ErrNoDocuments)⟩ := by
    intro e he
    unfold GetOrderById FindOne
    rw [hparam]
    unfold docIDOf at hnone
    cases e with
    | some msg => simp [he]
    | none => simp [he, hnone]
  refine ⟨?_, ?_, ⟨d, pre, post, hid, hsplit, hres⟩, ?_, ?_⟩
  · rw [hres, hget _ rfl]
  · intro hop'
    rw [hres, hget _ hop']
    rfl
  · intro e he hne
    rw [hres]
    rw [hsplit] at he
    rcases List.mem_append.mp he with h | h
    · exact List.mem_append.mpr (Or.inl h)
    · rcases List.mem_cons.mp h with h | h
      · subst h; exact absurd hid hne
      · exact List.mem_append.mpr (Or.inr h)
  · rw [hres, hsplit, List.filter_append, List.filter_cons]
    have hkeep : ∀ l : Collection,
        (∀ e ∈ l, matchesFilter [("_id", Value.objectID (docIDOf c))] e = false) →
        l.filter (fun e => decide (e.get "_id" ≠ some (Value.objectID (docIDOf c)))) = l := by
      intro l hl
      apply List.filter_eq_self.mpr
      intro e he
      have := hl e he
      rw [matchesFilter_id] at this
      simpa using this
    rw [hkeep pre hpre, hkeep post hpost]
    simp [hid]

/-- Witness of C5: the second of three orders is deleted. -/
theorem DeleteOrder_then_GetOrderById_witness :
    (GetOrderById (⟨[("id", "020202020202020202020202")], Except.ok ()⟩ : Context Unit)
      ⟨NilObjectID, none, none⟩
      (DeleteOrder (⟨[("id", "020202020202020202020202")], Except.ok ()⟩ : Context Unit)
        ⟨NilObjectID, none, none⟩
        [[("_id", Value.objectID ⟨List.replicate 12 1, rfl⟩), ("server", Value.string "Alice")],
         [("_id", Value.objectID ⟨List.replicate 12 2, rfl⟩), ("server", Value.string "Bob")],
         [("_id", Value.objectID ⟨List.replicate 12 3, rfl⟩), ("server", Value.string "Alice")]]).2
      ).1.status = StatusInternalServerError :=
  (DeleteOrder_then_GetOrderById
    (⟨[("id", "020202020202020202020202")], Except.ok ()⟩ : Context Unit)
    ⟨NilObjectID, none, none⟩
    [[("_id", Value.objectID ⟨List.replicate 12 1, rfl⟩), ("server", Value.string "Alice")],
     [("_id", Value.objectID ⟨List.replicate 12 2, rfl⟩), ("server", Value.string "Bob")],
     [("_id", Value.objectID ⟨List.replicate 12 3, rfl⟩), ("server", Value.string "Alice")]]
    (⟨[("id", "020202020202020202020202")], Except.ok ()⟩ : Context Unit)
    ⟨NilObjectID, none, none⟩
    (by decide) (by decide) rfl).1

/-- Claim C6. When the id matches no document of the collection, DeleteOrder
(the store answering) responds 200 with deleted count 0 and leaves the
collection unchanged. -/
theorem DeleteOrder_no_match {β : Type} (c : Context β) (env : Env) (coll : Collection)
    (hno : ∀ d ∈ coll, d.get "_id" ≠ some (Value.objectID (docIDOf c)))
    (hop : env.opErr = none) :
    DeleteOrder c env coll = (⟨StatusOK, Body.count 0⟩, coll) := by
  have hnone : coll.find? (matchesFilter [("_id", Value.objectID (docIDOf c))]) = none := by
    apply find?_none_of_no_match
    intro e he
    rw [matchesFilter_id]
    simpa using hno e he
  unfold DeleteOrder DeleteOne
  unfold docIDOf at hnone
  simp only [hop, hnone]

/-- Witness of C6: deleting an id that no order has. -/
theorem DeleteOrder_no_match_witness :
    DeleteOrder (⟨[("id", "090909090909090909090909")], Except.ok ()⟩ : Context Unit)
      ⟨NilObjectID, none, none⟩
      [[("_id", Value.objectID ⟨List.replicate 12 1, rfl⟩), ("server", Value.string "Alice")]]
    = (⟨StatusOK, Body.count 0⟩,
      [[("_id", Value.objectID ⟨List.replicate 12 1, rfl⟩), ("server", Value.string "Alice")]]) :=
  DeleteOrder_no_match
    (⟨[("id", "090909090909090909090909")], Except.ok ()⟩ : Context Unit)
    ⟨NilObjectID, none, none⟩
    [[("_id", Value.objectID ⟨List.replicate 12 1, rfl⟩), ("server", Value.string "Alice")]]
    (by decide) rfl

/-! ## The ids of a collection under the handlers -/

theorem map_id_replaceFirst (p : Document → Bool) (d' : Document) (coll : Collection)
    (h : ∀ d, coll.find? p = some d → Document.id d' = Document.id d) :
    (replaceFirst p d' coll).map Document.id = coll.map Document.id := by
  induction coll with
  | nil => rfl
  | cons e rest ih =>
    by_cases he : p e = true
    · have := h e (by simp [List.find?, he])
      simp [replaceFirst, he, this]
    · have he' : p e = false := by simpa using he
      have ih' := ih (fun d hd => h d (by simpa [List.find?, he'] using hd))
      simp [replaceFirst, he', ih']

theorem find?_matches (p : Document → Bool) (coll : Collection) (d : Document)
    (h : coll.find? p = some d) : p d = true := by
  obtain ⟨_, _, _, _, hd⟩ := split_of_find? p coll d h
  exact hd

/-- UpdateWaiter leaves the id of every document as it was. -/
theorem UpdateWaiter_ids (c : Context Waiter) (env : Env) (coll : Collection) :
    (UpdateWaiter c env coll).2.map Document.id = coll.map Document.id := by
  unfold UpdateWaiter UpdateOne
  cases c.BindJSON with
  | error e => rfl
  | ok waiter =>
    cases env.opErr with
    | some e => rfl
    | none =>
      simp only
      cases hf : coll.find? (matchesFilter [("_id", Value.objectID (ObjectIDFromHex (ByName c.Params "id")).1)]) with
      | none => rfl
      | some d =>
        simp only
        have hidset : (d.set "server" (bsonString waiter.Server)).get "_id" = d.get "_id" :=
          get_set_ne d "server" "_id" _ (by decide)
        simp only [hidset, ne_eq, not_true_eq_false, if_false]
        apply map_id_replaceFirst
        intro d2 hd2
        rw [hf] at hd2
        cases hd2
        exact hidset

/-- UpdateOrder leaves the id of every document as it was. -/
theorem UpdateOrder_ids (c : Context Order) (env : Env) (coll : Collection) :
    (UpdateOrder c env coll).2.map Document.id = coll.map Document.id := by
  unfold UpdateOrder ReplaceOne
  cases c.BindJSON with
  | error e => rfl
  | ok order =>
    simp only [validate.Struct]
    cases env.opErr with
    | some e => rfl
    | none =>
      simp only
      cases hf : coll.find? (matchesFilter [("_id", Value.objectID (ObjectIDFromHex (ByName c.Params "id")).1)]) with
      | none => rfl
      | some d =>
        have hd := find?_matches _ coll d hf
        rw [matchesFilter_id] at hd
        have hid : d.get "_id" = some (Value.objectID (ObjectIDFromHex (ByName c.Params "id")).1) := by
          simpa using hd
        have hnoid : Document.get [("dish", bsonString order.Dish), ("price", bsonDouble order.Price),
            ("server", bsonString order.Server), ("table", bsonString order.Table)] "_id" = none := by
          simp [Document.get]
        simp only [hid, hnoid]
        apply map_id_replaceFirst
        intro d2 hd2
        rw [hf] at hd2
        cases hd2
        unfold Document.id
        rw [hid]
        simp [Document.get]

/-- DeleteOrder keeps a sublist of the collection. -/
theorem DeleteOrder_sublist {β : Type} (c : Context β) (env : Env) (coll : Collection) :
    (DeleteOrder c env coll).2.Sublist coll := by
  unfold DeleteOrder DeleteOne
  cases env.opErr with
  | some e => exact List.Sublist.refl _
  | none =>
    simp only
    cases coll.find? (matchesFilter [("_id", Value.objectID (ObjectIDFromHex (ByName c.Params "id")).1)]) with
    | none => exact List.Sublist.refl _
    | some d => exact List.eraseP_sublist _

/-- AddOrder either leaves the collection as it was or adds one document, whose
id is the generated one and was not in the collection. -/
theorem AddOrder_collection (c : Context Order) (env : Env) (coll : Collection) :
    (AddOrder c env coll).2 = coll ∨
    ∃ doc : Document, (AddOrder c env coll).2 = coll ++ [doc] ∧
      Document.id doc = some (Value.objectID env.NewObjectID) ∧
      Document.id doc ∉ coll.map Document.id := by
  cases hb : c.BindJSON with
  | error e => left; simp [AddOrder, hb]
  | ok o =>
    by_cases hok : (AddOrder c env coll).1.status = StatusOK
    · right
      obtain ⟨hfresh, hres⟩ := AddOrder_ok c env coll o hb hok
      refine ⟨Order.toBSON { o with ID := env.NewObjectID }, by rw [hres], ?_, ?_⟩
      · simp [Document.id, Order.toBSON, Document.get]
      · intro hmem
        obtain ⟨e, he, heq⟩ := List.mem_map.mp hmem
        apply hfresh e he
        unfold Document.id at heq
        rw [heq]
        simp [Order.toBSON, Document.get]
    · left
      unfold AddOrder at hok ⊢
      simp only [hb, validate.Struct] at hok ⊢
      cases hins : InsertOne env.opErr coll { o with ID := env.NewObjectID } with
      | error e => rfl
      | ok res =>
        rw [hins] at hok
        exact absurd rfl hok

/-- The three reading handlers leave the collection as it was. -/
theorem GetOrders_collection {β : Type} (c : Context β) (env : Env) (coll : Collection) :
    (GetOrders c env coll).2 = coll := by
  unfold GetOrders
  cases Find env.opErr coll [] with
  | error e => rfl
  | ok cursor =>
    simp only
    cases Cursor.All env.cursorErr cursor Slice.nil with
    | error e => rfl
    | ok orders => rfl

theorem GetOrdersByWaiter_collection {β : Type} (c : Context β) (env : Env)
    (coll : Collection) : (GetOrdersByWaiter c env coll).2 = coll := by
  unfold GetOrdersByWaiter
  simp only
  cases Find env.opErr coll [("server", Value.string (ByName c.Params "waiter"))] with
  | error e => rfl
  | ok cursor =>
    simp only
    cases Cursor.All env.cursorErr cursor Slice.nil with
    | error e => rfl
    | ok orders => rfl

theorem GetOrderById_collection {β : Type} (c : Context β) (env : Env) (coll : Collection) :
    (GetOrderById c env coll).2 = coll := by
  unfold GetOrderById
  simp only
  cases FindOne env.opErr coll
      [("_id", Value.objectID (ObjectIDFromHex (ByName c.Params "id")).1)] with
  | error e => rfl
  | ok order => rfl

/-- One request: the ids of the resulting collection are ids of the old one or
the generated id. -/
theorem serve_ids_subset (r : Request) (env : Env) (coll : Collection) :
    ∀ v ∈ (serve r env coll).2.map Document.id,
      v ∈ coll.map Document.id ∨ v = some (Value.objectID env.NewObjectID) := by
  intro v hv
  cases r with
  | AddOrder c =>
    rcases AddOrder_collection c env coll with h | ⟨doc, h, hid, _⟩
    · left; simpa [serve, h] using hv
    · simp only [serve, h, List.map_append, List.mem_append, List.map_cons, List.map_nil,
        List.mem_singleton] at hv
      rcases hv with hv | hv
      · left; exact hv
      · right; rw [hv, hid]
  | GetOrdersByWaiter c =>
    left
    have := GetOrdersByWaiter_collection c env coll
    simpa [serve, this] using hv
  | GetOrders c =>
    left
    have := GetOrders_collection c env coll
    simpa [serve, this] using hv
  | GetOrderById c =>
    left
    have := GetOrderById_collection c env coll
    simpa [serve, this] using hv
  | UpdateWaiter c => left; simpa [serve, UpdateWaiter_ids] using hv
  | UpdateOrder c => left; simpa [serve, UpdateOrder_ids] using hv
  | DeleteOrder c =>
    left
    exact ((DeleteOrder_sublist c env coll).map Document.id).subset hv

/-- One request keeps the ids pairwise distinct. -/
theorem serve_idsDistinct (r : Request) (env : Env) (coll : Collection)
    (h : idsDistinct coll) : idsDistinct (serve r env coll).2 := by
  unfold idsDistinct at h ⊢
  cases r with
  | AddOrder c =>
    rcases AddOrder_collection c env coll with h1 | ⟨doc, h1, _, hnew⟩
    · simpa [serve, h1] using h
    · simp only [serve, h1, List.map_append, List.map_cons, List.map_nil]
      rw [List.nodup_append]
      refine ⟨h, List.nodup_singleton _, ?_⟩
      intro x hx hx'
      rw [List.mem_singleton] at hx'
      subst hx'
      exact hnew hx
  | GetOrdersByWaiter c =>
    have := GetOrdersByWaiter_collection c env coll
    simpa [serve, this] using h
  | GetOrders c =>
    have := GetOrders_collection c env coll
    simpa [serve, this] using h
  | GetOrderById c =>
    have := GetOrderById_collection c env coll
    simpa [serve, this] using h
  | UpdateWaiter c => simpa [serve, UpdateWaiter_ids] using h
  | UpdateOrder c => simpa [serve, UpdateOrder_ids] using h
  | DeleteOrder c =>
    exact List.Nodup.sublist ((DeleteOrder_sublist c env coll).map Document.id) h

theorem run_idsDistinct (reqs : List (Request × Env)) (coll : Collection)
    (h : idsDistinct coll) : idsDistinct (run coll reqs) := by
  induction reqs generalizing coll with
  | nil => exact h
  | cons r rest ih =>
    obtain ⟨r, env⟩ := r
    exact ih _ (serve_idsDistinct r env coll h)

theorem run_no_nil (reqs : List (Request × Env)) (coll : Collection)
    (hgen : ∀ r ∈ reqs, r.2.NewObjectID ≠ NilObjectID)
    (h : some (Value.objectID NilObjectID) ∉ coll.map Document.id) :
    some (Value.objectID NilObjectID) ∉ (run coll reqs).map Document.id := by
  induction reqs generalizing coll with
  | nil => exact h
  | cons r rest ih =>
    obtain ⟨r, env⟩ := r
    apply ih _ (fun x hx => hgen x (List.mem_cons_of_mem _ hx))
    intro hmem
    rcases serve_ids_subset r env coll _ hmem with h1 | h1
    · exact h h1
    · have := hgen (r, env) (List.mem_cons_self _ _)
      simp only [Option.some.injEq, Value.objectID.injEq] at h1
      exact this h1.symm

/-! ## The claims on ids, on malformed ids, on statuses and on validation -/

/-- Claim C7. Whenever AddOrder responds 200 for a body that decodes to `o`
(whatever id the body itself carries), the inserted document is the marshalled
order under the freshly generated id, that id was not the id of any document of
the collection before the call, and a different client-supplied id in the body
changes nothing. Consequently the ids are pairwise distinct in every collection
the handlers reach from the empty one, and UpdateWaiter and UpdateOrder leave
the id of every document as it was. -/
theorem AddOrder_fresh_id_ids_distinct :
    (∀ (c : Context Order) (env : Env) (coll : Collection) (o : Order) (clientID : ObjectID),
      c.BindJSON = Except.ok o → (AddOrder c env coll).1.status = StatusOK →
        AddOrder c env coll
          = (⟨StatusOK, Body.insertResult (Value.objectID env.NewObjectID)⟩,
              coll ++ [Order.toBSON { o with ID := env.NewObjectID }]) ∧
        (Order.toBSON { o with ID := env.NewObjectID }).get "_id"
          = some (Value.objectID env.NewObjectID) ∧
        (∀ d ∈ coll, d.get "_id" ≠ some (Value.objectID env.NewObjectID)) ∧
        AddOrder ⟨c.Params, Except.ok { o with ID := clientID }⟩ env coll
          = AddOrder c env coll) ∧
    (∀ reqs : List (Request × Env), idsDistinct (run [] reqs)) ∧
    (∀ (c : Context Waiter) (env : Env) (coll : Collection),
      (UpdateWaiter c env coll).2.map Document.id = coll.map Document.id) ∧
    (∀ (c : Context Order) (env : Env) (coll : Collection),
      (UpdateOrder c env coll).2.map Document.id = coll.map Document.id) := by
  refine ⟨?_, ?_, UpdateWaiter_ids, UpdateOrder_ids⟩
  · intro c env coll o clientID hdec hok
    obtain ⟨hfresh, hres⟩ := AddOrder_ok c env coll o hdec hok
    refine ⟨hres, by simp [Order.toBSON, Document.get], hfresh, ?_⟩
    unfold AddOrder
    simp only [hdec, validate.Struct]
  · intro reqs
    exact run_idsDistinct reqs [] (by simp [idsDistinct])

/-- Witness of C7: a body that carries the id `09…09` is stored under the
generated id `07…07`. -/
theorem AddOrder_fresh_id_ids_distinct_witness :
    AddOrder ⟨[], Except.ok ⟨⟨List.replicate 12 9, rfl⟩, some "Pasta", none, none, none⟩⟩
        ⟨⟨List.replicate 12 7, rfl⟩, none, none⟩
        [[("_id", Value.objectID ⟨List.replicate 12 9, rfl⟩)]]
      = (⟨StatusOK, Body.insertResult (Value.objectID ⟨List.replicate 12 7, rfl⟩)⟩,
          [[("_id", Value.objectID ⟨List.replicate 12 9, rfl⟩)]] ++
            [Order.toBSON ⟨⟨List.replicate 12 7, rfl⟩, some "Pasta", none, none, none⟩]) :=
  (AddOrder_fresh_id_ids_distinct.1
    ⟨[], Except.ok ⟨⟨List.replicate 12 9, rfl⟩, some "Pasta", none, none, none⟩⟩
    ⟨⟨List.replicate 12 7, rfl⟩, none, none⟩
    [[("_id", Value.objectID ⟨List.replicate 12 9, rfl⟩)]]
    ⟨⟨List.replicate 12 9, rfl⟩, some "Pasta", none, none, none⟩
    NilObjectID rfl (by decide)).1

/-- Claim C8. On every collection the handlers reach from the empty one (the
id generator never handing out the zero id), a GetOrderById whose path
parameter is not a valid hex id drops the parse error, looks up the zero id and
responds 500 with an error object, the not-found error of the driver when the
store answers; it responds neither 400 nor 200 and leaves the collection as it
was. -/
theorem GetOrderById_invalid_hex {β : Type} (reqs : List (Request × Env)) (c : Context β)
    (env : Env)
    (hgen : ∀ r ∈ reqs, r.2.NewObjectID ≠ NilObjectID)
    (hbad : (ObjectIDFromHex (ByName c.Params "id")).2 ≠ none) :
    docIDOf c = NilObjectID ∧
    (GetOrderById c env (run [] reqs)).1.status = StatusInternalServerError ∧
    (env.opErr = none →
      (GetOrderById c env (run [] reqs)).1.body = Body.error ErrNoDocuments) ∧
    (∃ msg, (GetOrderById c env (run [] reqs)).1.body = Body.error msg) ∧
    (GetOrderById c env (run [] reqs)).1.status ≠ StatusBadRequest ∧
    (GetOrderById c env (run [] reqs)).1.status ≠ StatusOK ∧
    (GetOrderById c env (run [] reqs)).2 = run [] reqs := by
  have hnil : (ObjectIDFromHex (ByName c.Params "id")).1 = NilObjectID :=
    ObjectIDFromHex_error _ hbad
  have hinv := run_no_nil reqs [] hgen (by simp)
  have hnone : (run [] reqs).find? (matchesFilter [("_id", Value.objectID NilObjectID)])
      = none := by
    apply find?_none_of_no_match
    intro e he
    rw [matchesFilter_id]
    simp only [decide_eq_false_iff_not]
    intro hmatch
    apply hinv
    rw [← hmatch]
    exact List.mem_map_of_mem Document.id he
  have hget : (GetOrderById c env (run [] reqs)).1
      = ⟨StatusInternalServerError, Body.error (env.opErr.getD ErrNoDocuments)⟩ := by
    unfold GetOrderById FindOne
    simp only [hnil]
    cases env.opErr with
    | some msg => rfl
    | none => simp [hnone]
  refine ⟨hnil, by rw [hget], ?_, ⟨_, by rw [hget]⟩, ?_, ?_, GetOrderById_collection c env _⟩
  · intro hop
    rw [hget, hop]
    rfl
  · rw [hget]; simp [StatusInternalServerError, StatusBadRequest]
  · rw [hget]; simp [StatusInternalServerError, StatusOK]

/-- Witness of C8: after an order was added, the lookup of the id `xyz`. -/
theorem GetOrderById_invalid_hex_witness :
    (GetOrderById (⟨[("id", "xyz")], Except.ok ()⟩ : Context Unit) ⟨NilObjectID, none, none⟩
      (run [] [(Request.AddOrder ⟨[], Except.ok ⟨NilObjectID, some "Pasta", none, none, none⟩⟩,
        ⟨⟨List.replicate 12 7, rfl⟩, none, none⟩)])).1.status = StatusInternalServerError ∧
    (GetOrderById (⟨[("id", "xyz")], Except.ok ()⟩ : Context Unit) ⟨NilObjectID, none, none⟩
      (run [] [(Request.AddOrder ⟨[], Except.ok ⟨NilObjectID, some "Pasta", none, none, none⟩⟩,
        ⟨⟨List.replicate 12 7, rfl⟩, none, none⟩)])).1.body = Body.error ErrNoDocuments :=
  let h := GetOrderById_invalid_hex
    [(Request.AddOrder ⟨[], Except.ok ⟨NilObjectID, some "Pasta", none, none, none⟩⟩,
      ⟨⟨List.replicate 12 7, rfl⟩, none, none⟩)]
    (⟨[("id", "xyz")], Except.ok ()⟩ : Context Unit) ⟨NilObjectID, none, none⟩
    (by decide) (by decide)
  ⟨h.2.1, h.2.2.1 rfl⟩

/-- Claim C9. Error-to-status mapping, for every request, environment and
collection: a body that fails to decode or to validate (AddOrder, UpdateWaiter,
UpdateOrder) gives 400 with the error object of that error and the collection
unchanged, whatever the store would have done; an accepted request whose
persistence operation fails gives 500 with an error object (the fixed message
for AddOrder, the driver's error otherwise); every other request gives 200; no
other status occurs, and a response that is not 200 carries an error object. -/
theorem serve_status (r : Request) (env : Env) (coll : Collection) :
    (∀ e, bodyError r = some e →
      ∀ env' : Env, serve r env' coll = (⟨StatusBadRequest, Body.error e⟩, coll)) ∧
    (bodyError r = none → ∀ e, persistenceError r env coll = some e →
      (serve r env coll).1 = ⟨StatusInternalServerError, Body.error
        (match r with
          | Request.AddOrder _ => "order item was not created"
          | _ => e)⟩) ∧
    (bodyError r = none → persistenceError r env coll = none →
      (serve r env coll).1.status = StatusOK) ∧
    ((serve r env coll).1.status = StatusOK ∨
      (serve r env coll).1.status = StatusBadRequest ∨
      (serve r env coll).1.status = StatusInternalServerError) ∧
    ((serve r env coll).1.status ≠ StatusOK →
      ∃ msg, (serve r env coll).1.body = Body.error msg) := by
  cases r with
  | AddOrder c =>
    simp only [serve, bodyError, persistenceError, AddOrder, validate.Struct]
    cases c.BindJSON with
    | error e0 => simp [StatusBadRequest, StatusOK]
    | ok o =>
      simp only
      cases InsertOne env.opErr coll { o with ID := env.NewObjectID } with
      | error e1 => simp [errorOf, StatusInternalServerError, StatusOK]
      | ok res => simp [errorOf]
  | GetOrdersByWaiter c =>
    simp only [serve, bodyError, persistenceError, GetOrdersByWaiter]
    cases Find env.opErr coll [("server", Value.string (ByName c.Params "waiter"))] with
    | error e1 => simp [StatusInternalServerError, StatusOK]
    | ok cursor =>
      simp only
      cases Cursor.All env.cursorErr cursor Slice.nil with
      | error e1 => simp [errorOf, StatusInternalServerError, StatusOK]
      | ok res => simp [errorOf]
  | GetOrders c =>
    simp only [serve, bodyError, persistenceError, GetOrders]
    cases Find env.opErr coll [] with
    | error e1 => simp [StatusInternalServerError, StatusOK]
    | ok cursor =>
      simp only
      cases Cursor.All env.cursorErr cursor Slice.nil with
      | error e1 => simp [errorOf, StatusInternalServerError, StatusOK]
      | ok res => simp [errorOf]
  | GetOrderById c =>
    simp only [serve, bodyError, persistenceError, GetOrderById, docIDOf]
    cases FindOne env.opErr coll
        [("_id", Value.objectID (ObjectIDFromHex (ByName c.Params "id")).1)] with
    | error e1 => simp [errorOf, StatusInternalServerError, StatusOK]
    | ok res => simp [errorOf]
  | UpdateWaiter c =>
    simp only [serve, bodyError, persistenceError, UpdateWaiter, docIDOf]
    cases c.BindJSON with
    | error e0 => simp [StatusBadRequest, StatusOK]
    | ok w =>
      simp only
      cases UpdateOne env.opErr coll
          [("_id", Value.objectID (ObjectIDFromHex (ByName c.Params "id")).1)]
          "server" (bsonString w.Server) with
      | error e1 => simp [errorOf, StatusInternalServerError, StatusOK]
      | ok res => simp [errorOf]
  | UpdateOrder c =>
    simp only [serve, bodyError, persistenceError, UpdateOrder, docIDOf, validate.Struct]
    cases c.BindJSON with
    | error e0 => simp [StatusBadRequest, StatusOK]
    | ok o =>
      simp only
      cases ReplaceOne env.opErr coll
          [("_id", Value.objectID (ObjectIDFromHex (ByName c.Params "id")).1)]
          [("dish", bsonString o.Dish), ("price", bsonDouble o.Price),
           ("server", bsonString o.Server), ("table", bsonString o.Table)] with
      | error e1 => simp [errorOf, StatusInternalServerError, StatusOK]
      | ok res => simp [errorOf]
  | DeleteOrder c =>
    simp only [serve, bodyError, persistenceError, DeleteOrder, docIDOf]
    cases DeleteOne env.opErr coll
        [("_id", Value.objectID (ObjectIDFromHex (ByName c.Params "id")).1)] with
    | error e1 => simp [errorOf, StatusInternalServerError, StatusOK]
    | ok res => simp [errorOf]

/-- Witness of C9: a body that does not decode gives 400 and leaves the
collection; a lookup in the empty collection gives 500 with the driver's
error. -/
theorem serve_status_witness :
    serve (Request.UpdateWaiter ⟨[("id", "010101010101010101010101")], Except.error "EOF"⟩)
        ⟨NilObjectID, none, none⟩
        [[("_id", Value.objectID ⟨List.replicate 12 1, rfl⟩), ("server", Value.string "Alice")]]
      = (⟨StatusBadRequest, Body.error "EOF"⟩,
        [[("_id", Value.objectID ⟨List.replicate 12 1, rfl⟩), ("server", Value.string "Alice")]]) ∧
    (serve (Request.GetOrderById ⟨[("id", "010101010101010101010101")], Except.ok ()⟩)
        ⟨NilObjectID, none, none⟩ []).1
      = ⟨StatusInternalServerError, Body.error ErrNoDocuments⟩ :=
  ⟨(serve_status
      (Request.UpdateWaiter ⟨[("id", "010101010101010101010101")], Except.error "EOF"⟩)
      ⟨NilObjectID, none, none⟩
      [[("_id", Value.objectID ⟨List.replicate 12 1, rfl⟩), ("server", Value.string "Alice")]]).1
      "EOF" rfl ⟨NilObjectID, none, none⟩,
   (serve_status
      (Request.GetOrderById ⟨[("id", "010101010101010101010101")], Except.ok ()⟩)
      ⟨NilObjectID, none, none⟩ []).2.1 rfl ErrNoDocuments (by decide)⟩

/-- Claim C10. The Order model declares no validation rule, so validation
accepts every body that decodes, whichever of dish, price, server and table it
has or lacks: after a successful decode neither AddOrder nor UpdateOrder
responds 400, and when the store answers and the generated id is unused
AddOrder responds 200 and adds a document that holds each field of the body
under its key, an omitted field as null. -/
theorem AddOrder_no_validation_rule (c : Context Order) (env : Env) (coll : Collection)
    (o : Order) (hdec : c.BindJSON = Except.ok o) :
    validate.Struct o = none ∧
    (AddOrder c env coll).1.status ≠ StatusBadRequest ∧
    (UpdateOrder c env coll).1.status ≠ StatusBadRequest ∧
    (env.opErr = none →
      (∀ d ∈ coll, d.get "_id" ≠ some (Value.objectID env.NewObjectID)) →
      ∃ doc : Document,
        AddOrder c env coll
          = (⟨StatusOK, Body.insertResult (Value.objectID env.NewObjectID)⟩, coll ++ [doc]) ∧
        doc.get "_id" = some (Value.objectID env.NewObjectID) ∧
        doc.get "dish" = some (bsonString o.Dish) ∧
        doc.get "price" = some (bsonDouble o.Price) ∧
        doc.get "server" = some (bsonString o.Server) ∧
        doc.get "table" = some (bsonString o.Table) ∧
        (o.Dish = none → doc.get "dish" = some Value.null) ∧
        (o.Price = none → doc.get "price" = some Value.null) ∧
        (o.Server = none → doc.get "server" = some Value.null) ∧
        (o.Table = none → doc.get "table" = some Value.null)) := by
  refine ⟨rfl, ?_, ?_, ?_⟩
  · unfold AddOrder
    simp only [hdec, validate.Struct]
    cases InsertOne env.opErr coll { o with ID := env.NewObjectID } with
    | error e => simp [StatusInternalServerError, StatusBadRequest]
    | ok res => simp [StatusOK, StatusBadRequest]
  · unfold UpdateOrder
    simp only [hdec, validate.Struct]
    cases ReplaceOne env.opErr coll
        [("_id", Value.objectID (ObjectIDFromHex (ByName c.Params "id")).1)]
        [("dish", bsonString o.Dish), ("price", bsonDouble o.Price),
         ("server", bsonString o.Server), ("table", bsonString o.Table)] with
    | error e => simp [StatusInternalServerError, StatusBadRequest]
    | ok res => simp [StatusOK, StatusBadRequest]
  · intro hop hfresh
    refine ⟨Order.toBSON { o with ID := env.NewObjectID }, ?_, ?_⟩
    · have hany := (any_id_false_iff coll (Value.objectID env.NewObjectID)).mpr hfresh
      unfold AddOrder InsertOne
      simp only [hdec, validate.Struct, hop, hany]
      rfl
    · refine ⟨?_, ?_, ?_, ?_, ?_, ?_, ?_, ?_, ?_⟩
      · simp [Order.toBSON, Document.get]
      · simp [Order.toBSON, Document.get]
      · simp [Order.toBSON, Document.get]
      · simp [Order.toBSON, Document.get]
      · simp [Order.toBSON, Document.get]
      · intro h; simp [Order.toBSON, Document.get, h, bsonString]
      · intro h; simp [Order.toBSON, Document.get, h, bsonDouble]
      · intro h; simp [Order.toBSON, Document.get, h, bsonString]
      · intro h; simp [Order.toBSON, Document.get, h, bsonString]

/-- Witness of C10: the empty object `{}` is accepted and stored with its
fields null. -/
theorem AddOrder_no_validation_rule_witness :
    ∃ doc : Document,
      AddOrder ⟨[], Except.ok ⟨NilObjectID, none, none, none, none⟩⟩
          ⟨⟨List.replicate 12 7, rfl⟩, none, none⟩ []
        = (⟨StatusOK, Body.insertResult (Value.objectID ⟨List.replicate 12 7, rfl⟩)⟩,
            [] ++ [doc]) ∧
      doc.get "dish" = some Value.null ∧ doc.get "price" = some Value.null ∧
      doc.get "server" = some Value.null ∧ doc.get "table" = some Value.null :=
  match (AddOrder_no_validation_rule
    ⟨[], Except.ok ⟨NilObjectID, none, none, none, none⟩⟩
    ⟨⟨List.replicate 12 7, rfl⟩, none, none⟩ []
    ⟨NilObjectID, none, none, none, none⟩ rfl).2.2.2 rfl (by decide) with
  | ⟨doc, h1, _, _, _, _, _, h7, h8, h9, h10⟩ => ⟨doc, h1, h7 rfl, h8 rfl, h9 rfl, h10 rfl⟩

end GoApp
